import Mathlib

/-!
Shallow embedding of the SpatialMapping semantic-memory core
(src/semantic_memory/core/entity.py, core/relationship.py,
graph/semantic_graph.py) and proofs about its specification.

Modelling conventions:
* Python floats are modelled as rationals; the square roots inside
  cosine similarity force that one function into the reals.
* Python UUIDs are modelled as natural numbers.
* Python dicts are modelled as association lists in insertion order,
  Python sets as duplicate-free lists in insertion order.
* datetime.now() is modelled as an explicit time parameter.
* A raised exception is modelled with Except; a method that mutates
  the store returns the store paired with the Except outcome, with the
  store-so-far returned on the error path, mirroring where in the
  method body the raise statement sits.
-/

/-- Closed set of entity types, from core/entity.py EntityType. -/
inductive EntityType where
  | object
  | space
  | landmark
  | person
  | material
  | equipment
  | container
  | surface
  | unknown
deriving DecidableEq, Repr

/-- Visual appearance features, from core/entity.py VisualFeatures. -/
structure VisualFeatures where
  embedding : Option (List ℚ) := none
  color_histogram : Option (List ℚ) := none
  dominant_colors : List String := []
  size_estimate : Option String := none
  shape_descriptor : Option String := none
  texture_features : Option (List ℚ) := none
deriving DecidableEq, Repr

/-- Semantic properties of an entity, from core/entity.py SemanticAttributes. -/
structure SemanticAttributes where
  category : Option String := none
  subcategory : Option String := none
  function : Option String := none
  material_composition : List String := []
  brand : Option String := none
  model : Option String := none
  tags : List String := []
  description : Option String := none
  aliases : List String := []
deriving DecidableEq, Repr

/-- A physical entity, from core/entity.py Entity. -/
structure Entity where
  id : Nat
  entity_type : EntityType
  name : String
  semantic : SemanticAttributes := {}
  visual : VisualFeatures := {}
  first_observed : Nat := 0
  last_observed : Nat := 0
  observation_count : Nat := 1
  source_devices : List String := []
  confidence : ℚ := 1/2
  properties : List (String × String) := []
deriving DecidableEq, Repr

/-- Python set.add on the list model of a set: append if absent. -/
def setAdd {α : Type} [DecidableEq α] (l : List α) (x : α) : List α :=
  if x ∈ l then l else l ++ [x]

/-- Python set.update on the list model of a set. -/
def setUnionUpd {α : Type} [DecidableEq α] (l₁ l₂ : List α) : List α :=
  l₂.foldl setAdd l₁

/-- Python dict assignment d[k] = v: overwrite in place, else append. -/
def aset {α β : Type} [DecidableEq α] (l : List (α × β)) (k : α) (v : β) :
    List (α × β) :=
  if k ∈ l.map Prod.fst then
    l.map (fun p => if p.1 = k then (k, v) else p)
  else l ++ [(k, v)]

/-- Python dict lookup d.get(k): value of the first pair with key k. -/
def alookup {α β : Type} [DecidableEq α] (l : List (α × β)) (k : α) : Option β :=
  (l.find? (fun p => p.1 = k)).map Prod.snd

/-- Python dict.update: incoming keys override, new keys append. -/
def dictUpdate {α β : Type} [DecidableEq α] (d₁ d₂ : List (α × β)) :
    List (α × β) :=
  d₂.foldl (fun d p => aset d p.1 p.2) d₁

/-- Python str.lower modelled characterwise; the source only lower-cases
ASCII names. -/
def strLower (s : String) : String := String.mk (s.data.map Char.toLower)

/-- Python truthiness of an optional string: not None and not empty. -/
def strTruthy : Option String → Bool
  | none => false
  | some s => decide (s ≠ "")

/-- Python truthiness of an optional list: not None and not empty. -/
def listTruthy {α : Type} [DecidableEq α] : Option (List α) → Bool
  | none => false
  | some l => decide (l ≠ [])

/-- Entity.merge_observation from core/entity.py lines 78-109, with the
statements in source order; now stands for datetime.now(). -/
def Entity.merge_observation (self other : Entity) (weight : ℚ) (now : Nat) :
    Entity :=
  let s1 := { self with last_observed := now,
                        observation_count := self.observation_count + 1 }
  let s2 := if other.semantic.tags ≠ [] then
      { s1 with semantic :=
          { s1.semantic with tags := setUnionUpd s1.semantic.tags other.semantic.tags } }
    else s1
  let s3 := if other.semantic.aliases ≠ [] then
      { s2 with semantic :=
          { s2.semantic with aliases := s2.semantic.aliases ++ other.semantic.aliases } }
    else s2
  let s4 := { s3 with
      confidence := (1 - weight) * s3.confidence + weight * other.confidence }
  let s5 := { s4 with
      source_devices := setUnionUpd s4.source_devices other.source_devices }
  let s6 := { s5 with properties := dictUpdate s5.properties other.properties }
  if other.confidence > s6.confidence then
    let s7 := if strTruthy other.semantic.category then
        { s6 with semantic := { s6.semantic with category := other.semantic.category } }
      else s6
    if strTruthy other.semantic.function then
      { s7 with semantic := { s7.semantic with function := other.semantic.function } }
    else s7
  else s6

/-- Entity._cosine_similarity from core/entity.py lines 154-167. The
square roots land in the reals. -/
noncomputable def cosine_similarity (vec1 vec2 : List ℚ) : ℝ :=
  if vec1.length ≠ vec2.length then 0
  else
    let dot : ℚ := ((vec1.zip vec2).map (fun p => p.1 * p.2)).sum
    let norm1 : ℝ := Real.sqrt (((vec1.map (fun a => a * a)).sum : ℚ) : ℝ)
    let norm2 : ℝ := Real.sqrt (((vec2.map (fun b => b * b)).sum : ℚ) : ℝ)
    if norm1 = 0 ∨ norm2 = 0 then 0
    else (dot : ℝ) / (norm1 * norm2)

/-- Lower-cased name together with lower-cased aliases, as in
core/entity.py lines 134-135. -/
def namePool (e : Entity) : List String :=
  strLower e.name :: e.semantic.aliases.map strLower

/-- Jaccard numerator of the two tag sets, core/entity.py line 147. -/
def tagOverlap (a b : Entity) : Nat :=
  ((a.semantic.tags.dedup).inter (b.semantic.tags.dedup)).length

/-- Jaccard denominator of the two tag sets, core/entity.py line 148. -/
def tagUnion (a b : Entity) : Nat :=
  ((a.semantic.tags.dedup).union (b.semantic.tags.dedup)).length

open Classical in
/-- Entity.matches from core/entity.py lines 111-152: the ordered
short-circuiting chain of the source, one ite per early return. -/
noncomputable def Entity.matches (self other : Entity) (threshold : ℝ) : Prop :=
  if self.entity_type ≠ other.entity_type ∧ self.entity_type ≠ EntityType.unknown
      ∧ other.entity_type ≠ EntityType.unknown then False
  else if strLower self.name = strLower other.name then True
  else if (namePool self).inter (namePool other) ≠ [] then True
  else if listTruthy self.visual.embedding ∧ listTruthy other.visual.embedding
      ∧ cosine_similarity (self.visual.embedding.getD [])
          (other.visual.embedding.getD []) > threshold then True
  else if self.semantic.tags ≠ [] ∧ other.semantic.tags ≠ []
      ∧ 0 < tagUnion self other
      ∧ (tagOverlap self other : ℚ) / (tagUnion self other : ℚ) > 1/2 then True
  else False

/-- Modelled from the claim wording for C1: the flat form of the chain —
not false on types, and some positive criterion true, with no weighting
across criteria. -/
noncomputable def matchesSpec (a b : Entity) (threshold : ℝ) : Prop :=
  (a.entity_type = EntityType.unknown ∨ b.entity_type = EntityType.unknown
      ∨ a.entity_type = b.entity_type) ∧
  (strLower a.name = strLower b.name
    ∨ (namePool a).inter (namePool b) ≠ []
    ∨ (listTruthy a.visual.embedding ∧ listTruthy b.visual.embedding
        ∧ cosine_similarity (a.visual.embedding.getD [])
            (b.visual.embedding.getD []) > threshold)
    ∨ (a.semantic.tags ≠ [] ∧ b.semantic.tags ≠ []
        ∧ (tagOverlap a b : ℚ) / (tagUnion a b : ℚ) > 1/2))

/-- Closed set of relation types, from core/relationship.py RelationType. -/
inductive RelationType where
  | ON
  | IN
  | NEAR
  | NEXT_TO
  | ABOVE
  | BELOW
  | LEFT_OF
  | RIGHT_OF
  | IN_FRONT_OF
  | BEHIND
  | ATTACHED_TO
  | PART_OF
  | USED_WITH
  | OPERATES
  | PRODUCES
  | CONSUMES
  | IS_A
  | INSTANCE_OF
  | OWNED_BY
  | ASSIGNED_TO
  | STORED_IN
  | BEFORE
  | AFTER
  | REPLACES
  | RELATED_TO
deriving DecidableEq, Repr

/-- Spatial edge properties, from core/relationship.py SpatialProperties. -/
structure SpatialProperties where
  distance_estimate : Option String := none
  distance_meters : Option ℚ := none
  relative_orientation : Option ℚ := none
  elevation_difference : Option String := none
  confidence : ℚ := 1/2
deriving DecidableEq, Repr

/-- A directed typed edge, from core/relationship.py Relationship. -/
structure Relationship where
  id : Nat
  relation_type : RelationType
  source_id : Nat
  target_id : Nat
  spatial : Option SpatialProperties := none
  first_observed : Nat := 0
  last_observed : Nat := 0
  observation_count : Nat := 1
  source_devices : List String := []
  confidence : ℚ := 1/2
  is_bidirectional : Bool := false
  properties : List (String × String) := []
deriving DecidableEq, Repr

/-- Relationship.merge_observation from core/relationship.py lines 110-121. -/
def Relationship.merge_observation (self : Relationship) (weight : ℚ) (now : Nat) :
    Relationship :=
  { self with
      last_observed := now,
      observation_count := self.observation_count + 1,
      confidence := min 1 (self.confidence + weight * (1 - self.confidence)) }

/-- Relationship.is_spatial from core/relationship.py lines 123-132. -/
def Relationship.is_spatial (self : Relationship) : Bool :=
  match self.relation_type with
  | .ON | .IN | .NEAR | .NEXT_TO | .ABOVE | .BELOW | .LEFT_OF | .RIGHT_OF
  | .IN_FRONT_OF | .BEHIND | .ATTACHED_TO => true
  | _ => false

/-- State of graph/semantic_graph.py SemanticGraph: the networkx
MultiDiGraph is modelled as its node list plus an edge list of
(u, v, key, relationship) in insertion order. -/
structure SemanticGraph where
  nodes : List Nat := []
  edges : List (Nat × Nat × Nat × Relationship) := []
  entity_index : List (Nat × Entity) := []
  relationship_index : List (Nat × Relationship) := []
  entities_by_type : List (EntityType × List Nat) := []
  entities_by_name : List (String × List Nat) := []
deriving DecidableEq, Repr

/-- The empty graph of SemanticGraph.__init__. -/
def SemanticGraph.empty : SemanticGraph := {}

/-- SemanticGraph.get_entity, line 98-100. -/
def SemanticGraph.get_entity (g : SemanticGraph) (entity_id : Nat) : Option Entity :=
  alookup g.entity_index entity_id

/-- SemanticGraph.get_relationships, lines 134-175, with the source and
target filters expressed over the modelled edge list. -/
def SemanticGraph.get_relationships (g : SemanticGraph)
    (source_id target_id : Option Nat) (relation_type : Option RelationType) :
    List Relationship :=
  let rels :=
    match source_id, target_id with
    | some s, some t =>
        ((g.edges.filter (fun e => e.1 = s ∧ e.2.1 = t)).map (fun e => e.2.2.2))
    | some s, none =>
        ((g.edges.filter (fun e => e.1 = s)).map (fun e => e.2.2.2))
    | none, some t =>
        ((g.edges.filter (fun e => e.2.1 = t)).map (fun e => e.2.2.2))
    | none, none => g.relationship_index.map Prod.snd
  match relation_type with
  | some rt => rels.filter (fun r => r.relation_type = rt)
  | none => rels

/-- SemanticGraph._find_existing_relationship, lines 327-334: first match
for the ordered pair and type. -/
def SemanticGraph.find_existing_relationship (g : SemanticGraph)
    (rel : Relationship) : Option Relationship :=
  (g.get_relationships (some rel.source_id) (some rel.target_id)
    (some rel.relation_type)).head?

/-- New-edge path of SemanticGraph.add_relationship, lines 87-96:
networkx add_edge also inserts missing endpoint nodes. -/
def SemanticGraph.add_new_relationship (g : SemanticGraph) (r : Relationship) :
    SemanticGraph :=
  { g with
      nodes := setAdd (setAdd g.nodes r.source_id) r.target_id,
      edges := g.edges ++ [(r.source_id, r.target_id, r.id, r)],
      relationship_index := aset g.relationship_index r.id r }

/-- SemanticGraph.add_relationship, lines 59-96. The ValueError raises
sit before any mutation, so the error branches return the store as
given; the in-place merge of the existing relationship updates the
object shared by the edge list and the relationship index. -/
def SemanticGraph.add_relationship (g : SemanticGraph) (r : Relationship)
    (merge_if_exists : Bool) (now : Nat) :
    SemanticGraph × Except String Relationship :=
  if (alookup g.entity_index r.source_id).isNone then
    (g, Except.error "Source entity not found")
  else if (alookup g.entity_index r.target_id).isNone then
    (g, Except.error "Target entity not found")
  else if merge_if_exists then
    match g.find_existing_relationship r with
    | some existing =>
        let merged := existing.merge_observation (3/10) now
        ({ g with
            edges := g.edges.map (fun e =>
              if e.2.2.1 = existing.id then (e.1, e.2.1, e.2.2.1, merged) else e),
            relationship_index := aset g.relationship_index existing.id merged },
         Except.ok merged)
    | none => (g.add_new_relationship r, Except.ok r)
  else (g.add_new_relationship r, Except.ok r)

/-- SemanticGraph._update_entity_indices, lines 336-347. -/
def SemanticGraph.update_entity_indices (g : SemanticGraph) (entity : Entity) :
    SemanticGraph :=
  let typeBucket := (alookup g.entities_by_type entity.entity_type).getD []
  let g1 := { g with
      entities_by_type := aset g.entities_by_type entity.entity_type
        (setAdd typeBucket entity.id) }
  let nameBucket := (alookup g1.entities_by_name (strLower entity.name)).getD []
  { g1 with
      entities_by_name := aset g1.entities_by_name (strLower entity.name)
        (setAdd nameBucket entity.id) }

/-- Contiguous-sublist check used to model the Python substring operator. -/
def charsInfix (sub : List Char) : List Char → Bool
  | [] => sub.isEmpty
  | c :: rest => sub.isPrefixOf (c :: rest) || charsInfix sub rest

/-- Containment check for a single lower-cased query inside one string,
the Python substring operator via character lists. -/
def strContainsSub (hay sub : String) : Bool :=
  charsInfix sub.data hay.data

/-- SemanticGraph.get_entities_by_name, lines 107-132. The exact branch
reads the name bucket; missing index entries are skipped. The fuzzy
branch scans entity_index values in insertion order. -/
def SemanticGraph.get_entities_by_name (g : SemanticGraph) (name : String)
    (fuzzy : Bool) : List Entity :=
  let name_lower := strLower name
  if !fuzzy then
    ((alookup g.entities_by_name name_lower).getD []).filterMap
      (fun eid => alookup g.entity_index eid)
  else
    g.entity_index.foldl (fun acc p =>
      if strContainsSub (strLower p.2.name) name_lower then acc ++ [p.2]
      else if p.2.semantic.aliases.any
          (fun al => strContainsSub (strLower al) name_lower) then acc ++ [p.2]
      else acc) []

open Classical in
/-- SemanticGraph._find_matching_entity, lines 309-325: exact-name
candidates first, then a scan over all stored entities of the same type
when the incoming entity has a visual embedding; 7/10 is the default
matching threshold. -/
noncomputable def SemanticGraph.find_matching_entity (g : SemanticGraph)
    (entity : Entity) : Option Entity :=
  let candidates := g.get_entities_by_name entity.name false
  match candidates.find? (fun c => decide (c.matches entity (7/10))) with
  | some c => some c
  | none =>
      if listTruthy entity.visual.embedding then
        (g.entity_index.map Prod.snd).find? (fun ex =>
          decide (ex.entity_type = entity.entity_type ∧ ex.matches entity (7/10)))
      else none

/-- New-entity path of SemanticGraph.add_entity, lines 50-57. The
networkx node attribute that aliases the stored entity is represented by
the entity_index entry alone. -/
def SemanticGraph.add_entity_new (g : SemanticGraph) (entity : Entity) :
    SemanticGraph × Entity :=
  let g1 := { g with
      nodes := setAdd g.nodes entity.id,
      entity_index := aset g.entity_index entity.id entity }
  (g1.update_entity_indices entity, entity)

/-- SemanticGraph.add_entity, lines 31-57. The in-place merge of the
matched entity is modelled by rewriting its entity_index entry; 3/10 is
the default merge weight. -/
noncomputable def SemanticGraph.add_entity (g : SemanticGraph) (entity : Entity)
    (merge_if_exists : Bool) (now : Nat) : SemanticGraph × Entity :=
  if merge_if_exists then
    match g.find_matching_entity entity with
    | some existing =>
        let merged := existing.merge_observation entity (3/10) now
        let g1 := { g with entity_index := aset g.entity_index existing.id merged }
        (g1.update_entity_indices merged, merged)
    | none => g.add_entity_new entity
  else g.add_entity_new entity

/-- Processing of one outgoing edge in the multi-hop loop of
SemanticGraph.query_spatial, lines 213-221, on state
(results, visited, next_level). -/
def hopEdge (g : SemanticGraph) (relation_type : Option RelationType)
    (st : List (Entity × Relationship) × List Nat × List Nat)
    (rel : Relationship) :
    List (Entity × Relationship) × List Nat × List Nat :=
  if rel.target_id ∉ st.2.1 then
    let res :=
      if (relation_type = none ∨ some rel.relation_type = relation_type)
          ∧ rel.is_spatial then
        match g.get_entity rel.target_id with
        | some target => st.1 ++ [(target, rel)]
        | none => st.1
      else st.1
    (res, st.2.1 ++ [rel.target_id], st.2.2 ++ [rel.target_id])
  else st

/-- Processing of one frontier node in the multi-hop loop, line 212-213. -/
def hopNode (g : SemanticGraph) (relation_type : Option RelationType)
    (st : List (Entity × Relationship) × List Nat × List Nat) (eid : Nat) :
    List (Entity × Relationship) × List Nat × List Nat :=
  (g.get_relationships (some eid) none none).foldl (hopEdge g relation_type) st

/-- One level of the multi-hop loop, lines 210-222: next_level starts
empty and becomes the next frontier. -/
def hopLevel (g : SemanticGraph) (relation_type : Option RelationType)
    (results : List (Entity × Relationship)) (visited current : List Nat) :
    List (Entity × Relationship) × List Nat × List Nat :=
  current.foldl (hopNode g relation_type) (results, visited, [])

/-- The for-loop over range(max_hops - 1), line 210. -/
def hopLoop (g : SemanticGraph) (relation_type : Option RelationType) :
    Nat → List (Entity × Relationship) → List Nat → List Nat →
    List (Entity × Relationship) × List Nat × List Nat
  | 0, results, visited, current => (results, visited, current)
  | n + 1, results, visited, current =>
      let st := hopLevel g relation_type results visited current
      hopLoop g relation_type n st.1 st.2.1 st.2.2

/-- SemanticGraph.query_spatial, lines 177-224. -/
def SemanticGraph.query_spatial (g : SemanticGraph) (entity : Entity)
    (relation_type : Option RelationType) (max_hops : Nat) :
    List (Entity × Relationship) :=
  let direct := (g.get_relationships (some entity.id) none none).foldl
    (fun res rel =>
      if relation_type ≠ none ∧ some rel.relation_type ≠ relation_type then res
      else if rel.is_spatial then
        match g.get_entity rel.target_id with
        | some target => res ++ [(target, rel)]
        | none => res
      else res) []
  if max_hops > 1 then
    (hopLoop g relation_type (max_hops - 1) direct [entity.id] [entity.id]).1
  else direct

/-- Breadth-first search over frontier paths stored in reverse; models
the unweighted nx.shortest_path call of find_path. -/
def bfsGo (adj : Nat → List Nat) (t : Nat) :
    Nat → List (List Nat) → List Nat → Option (List Nat)
  | _, [], _ => none
  | 0, _ :: _, _ => none
  | fuel + 1, p :: frontier, visited =>
      match (p :: frontier).find? (fun q => q.head? == some t) with
      | some q => some q.reverse
      | none =>
          let expanded := (p :: frontier).flatMap (fun q =>
            match q.head? with
            | none => []
            | some u => ((adj u).filter (fun n => decide (n ∉ visited))).map
                (fun n => n :: q))
          bfsGo adj t fuel expanded (visited ++ expanded.filterMap List.head?)

/-- The default allow-set of find_path, lines 243-248. -/
def defaultPathTypes : List RelationType :=
  [RelationType.ON, RelationType.IN, RelationType.NEAR,
   RelationType.NEXT_TO, RelationType.ATTACHED_TO]

/-- SemanticGraph.find_path, lines 226-261: edges outside the allow-set
are filtered out, nodes are kept; an endpoint missing from the node set
makes nx.shortest_path raise NodeNotFound, which the source does not
catch, while an unreachable target yields the non-error none. -/
def SemanticGraph.find_path (g : SemanticGraph) (source target : Entity)
    (relation_types : Option (List RelationType)) :
    Except String (Option (List (Option Entity))) :=
  let allowed := relation_types.getD defaultPathTypes
  let adj : Nat → List Nat := fun u =>
    (g.edges.filter (fun e => e.1 = u ∧ e.2.2.2.relation_type ∈ allowed)).map
      (fun e => e.2.1)
  if source.id ∉ g.nodes then Except.error "NodeNotFound"
  else if target.id ∉ g.nodes then Except.error "NodeNotFound"
  else
    match bfsGo adj target.id (g.nodes.length + 1) [[source.id]] [source.id] with
    | some ids => Except.ok (some (ids.map (fun eid => g.get_entity eid)))
    | none => Except.ok none

/-- Export document of SemanticGraph.export_to_dict, lines 364-373, with
the pydantic to_dict serialization modelled as the identity; the metadata
block (export timestamp and stats) is ignored on import and not kept. -/
structure ExportDoc where
  entities : List Entity
  relationships : List Relationship
deriving DecidableEq, Repr

/-- SemanticGraph.export_to_dict, lines 364-373. -/
def SemanticGraph.export_to_dict (g : SemanticGraph) : ExportDoc :=
  { entities := g.entity_index.map Prod.snd,
    relationships := g.relationship_index.map Prod.snd }

/-- SemanticGraph.import_from_dict, lines 375-390: every record is
re-inserted with merging disabled; a ValueError raised by
add_relationship propagates out. -/
noncomputable def SemanticGraph.import_from_dict (doc : ExportDoc) (now : Nat) :
    Except String SemanticGraph :=
  let g0 := doc.entities.foldl (fun g e => (g.add_entity e false now).1)
    SemanticGraph.empty
  doc.relationships.foldlM (fun g r =>
    match g.add_relationship r false now with
    | (g1, Except.ok _) => Except.ok g1
    | (_, Except.error msg) => Except.error msg) g0

/-- The total_entities field of SemanticGraph.stats, line 352. -/
def SemanticGraph.total_entities (g : SemanticGraph) : Nat :=
  g.entity_index.length

/-- The total_relationships field of SemanticGraph.stats, line 353. -/
def SemanticGraph.total_relationships (g : SemanticGraph) : Nat :=
  g.relationship_index.length
/-- Concrete existing entity for the C2 witness. -/
def c2Existing : Entity :=
  { id := 0, entity_type := .object, name := "x", confidence := 1 }

/-- Concrete incoming entity for the C2 witness. -/
def c2Incoming : Entity :=
  { id := 1, entity_type := .object, name := "x", confidence := 0 }

/-- Concrete relationship for the C8 witness. -/
def c8Rel : Relationship :=
  { id := 0, relation_type := .ON, source_id := 1, target_id := 2, confidence := 0 }

/-- Existing entity of the C5 counterexample. -/
def c5Existing : Entity :=
  { id := 0, entity_type := .object, name := "thing",
    semantic := { category := some "old" }, confidence := 0 }

/-- Incoming entity of the C5 counterexample. -/
def c5Incoming : Entity :=
  { id := 1, entity_type := .object, name := "thing",
    semantic := { category := some "new" }, confidence := 1 }

/-- Concrete relationship for the C3 witness. -/
def c3Rel : Relationship :=
  { id := 5, relation_type := .NEAR, source_id := 8, target_id := 9,
    confidence := 1 }

/-- The membership test the fuzzy branch applies to one stored entity. -/
def fuzzyHit (ql : String) (e : Entity) : Bool :=
  strContainsSub (strLower e.name) ql ||
    e.semantic.aliases.any (fun al => strContainsSub (strLower al) ql)

/-- The cup entity of the C6 counterexample. -/
def cupEntity : Entity :=
  { id := 7, entity_type := .object, name := "cup", confidence := 1 }

/-- Store of the C6 counterexample, holding only the cup entity. -/
noncomputable def cupGraph : SemanticGraph :=
  (SemanticGraph.empty.add_entity cupEntity false 0).1

/-- Well-formedness of a graph state: index keys are duplicate-free and
equal to the id of the stored record, and every stored relationship
points at stored entities — all invariants the insertion API maintains. -/
def GraphWF (g : SemanticGraph) : Prop :=
  (g.entity_index.map Prod.fst).Nodup ∧
  (∀ p ∈ g.entity_index, p.2.id = p.1) ∧
  (g.relationship_index.map Prod.fst).Nodup ∧
  (∀ p ∈ g.relationship_index, p.2.id = p.1) ∧
  (∀ p ∈ g.relationship_index,
    (alookup g.entity_index p.2.source_id).isSome ∧
    (alookup g.entity_index p.2.target_id).isSome)

/-- Edge tuples agree with the endpoint fields of the relationship they
carry; the insertion API only ever stores edges this way. -/
def EdgeWF (g : SemanticGraph) : Prop :=
  ∀ ed ∈ g.edges, ed.2.2.2.source_id = ed.1 ∧ ed.2.2.2.target_id = ed.2.1

/-- Reachability in at most k directed edge hops. -/
inductive ReachLe (g : SemanticGraph) : Nat → Nat → Nat → Prop where
  | refl (k u : Nat) : ReachLe g k u u
  | step {k u v w : Nat} : ReachLe g k u v →
      (∃ ed ∈ g.edges, ed.1 = v ∧ ed.2.1 = w) → ReachLe g (k + 1) u w

/-- Every result pair points at a node within k hops, and carries the
stored entity of that node. -/
def resBound (g : SemanticGraph) (e0 k : Nat)
    (res : List (Entity × Relationship)) : Prop :=
  ∀ pr ∈ res, ReachLe g k e0 pr.2.target_id ∧
    g.get_entity pr.2.target_id = some pr.1

/-- Every listed node is within k hops of the start. -/
def setBound (g : SemanticGraph) (e0 k : Nat) (cur : List Nat) : Prop :=
  ∀ n ∈ cur, ReachLe g k e0 n

/-- The index-coherence invariant of C9: every id in a by-type or
by-name bucket is a key of the primary entity map, and every stored
entity appears in the bucket of its type and of its lower-cased name. -/
def idxConsistent (g : SemanticGraph) : Prop :=
  (∀ p ∈ g.entities_by_type, ∀ eid ∈ p.2, eid ∈ g.entity_index.map Prod.fst) ∧
  (∀ p ∈ g.entities_by_name, ∀ eid ∈ p.2, eid ∈ g.entity_index.map Prod.fst) ∧
  (∀ p ∈ g.entity_index,
    (∃ bucket, alookup g.entities_by_type p.2.entity_type = some bucket
      ∧ p.1 ∈ bucket) ∧
    (∃ bucket, alookup g.entities_by_name (strLower p.2.name) = some bucket
      ∧ p.1 ∈ bucket))

/-- Store states reachable from the empty graph by any sequence of
entity inserts or merges and relationship inserts or merges. -/
inductive Reachable : SemanticGraph → Prop where
  | empty : Reachable SemanticGraph.empty
  | add_entity {g : SemanticGraph} (e : Entity) (m : Bool) (now : Nat) :
      Reachable g → Reachable (g.add_entity e m now).1
  | add_relationship {g : SemanticGraph} (r : Relationship) (m : Bool)
      (now : Nat) : Reachable g → Reachable (g.add_relationship r m now).1

/-- Concrete entity for the C9 witness. -/
def c9Entity : Entity :=
  { id := 4, entity_type := .container, name := "Bin", confidence := 1 }

/-- Second concrete entity for the C9 witness. -/
def c9Entity2 : Entity :=
  { id := 5, entity_type := .container, name := "bin", confidence := 1 }

/-- First chain entity for the path and traversal witnesses. -/
def wA : Entity := { id := 1, entity_type := .object, name := "A", confidence := 1 }

/-- Second chain entity for the path and traversal witnesses. -/
def wB : Entity := { id := 2, entity_type := .object, name := "B", confidence := 1 }

/-- Third chain entity for the path and traversal witnesses. -/
def wC : Entity := { id := 3, entity_type := .object, name := "C", confidence := 1 }

/-- The ON edge of the witness chain. -/
def wR1 : Relationship :=
  { id := 10, relation_type := .ON, source_id := 1, target_id := 2,
    confidence := 1 }

/-- The IN edge of the witness chain. -/
def wR2 : Relationship :=
  { id := 11, relation_type := .IN, source_id := 2, target_id := 3,
    confidence := 1 }

/-- The PART_OF edge of the witness pair. -/
def wRP : Relationship :=
  { id := 12, relation_type := .PART_OF, source_id := 1, target_id := 2,
    confidence := 1 }

/-- Witness chain store built through the insertion API. -/
noncomputable def wChain : SemanticGraph :=
  (((((SemanticGraph.empty.add_entity wA false 0).1.add_entity wB false
    0).1.add_entity wC false 0).1.add_relationship wR1 false
    0).1.add_relationship wR2 false 0).1

/-- Witness pair store with only a PART_OF edge. -/
noncomputable def wPair : SemanticGraph :=
  (((SemanticGraph.empty.add_entity wA false 0).1.add_entity wB false
    0).1.add_relationship wRP false 0).1

lemma merge_observation_confidence (e o : Entity) (w : ℚ) (now : Nat) :
    (e.merge_observation o w now).confidence
      = (1 - w) * e.confidence + w * o.confidence := by
  unfold Entity.merge_observation
  dsimp only
  repeat' split
  all_goals rfl

lemma merge_observation_count (e o : Entity) (w : ℚ) (now : Nat) :
    (e.merge_observation o w now).observation_count = e.observation_count + 1 := by
  unfold Entity.merge_observation
  dsimp only
  repeat' split
  all_goals rfl

lemma merge_observation_category (e o : Entity) (w : ℚ) (now : Nat) :
    (e.merge_observation o w now).semantic.category =
      if o.confidence > (1 - w) * e.confidence + w * o.confidence
          ∧ strTruthy o.semantic.category
      then o.semantic.category else e.semantic.category := by
  unfold Entity.merge_observation
  dsimp only
  repeat' split
  all_goals simp_all

lemma merge_observation_function (e o : Entity) (w : ℚ) (now : Nat) :
    (e.merge_observation o w now).semantic.function =
      if o.confidence > (1 - w) * e.confidence + w * o.confidence
          ∧ strTruthy o.semantic.function
      then o.semantic.function else e.semantic.function := by
  unfold Entity.merge_observation
  dsimp only
  repeat' split
  all_goals simp_all

lemma merge_observation_id (e o : Entity) (w : ℚ) (now : Nat) :
    (e.merge_observation o w now).id = e.id := by
  unfold Entity.merge_observation
  dsimp only
  repeat' split
  all_goals rfl

/-- C2: merging an observation blends confidence to exactly
(1-w)*c0 + w*c1 and increments observation_count by one. -/
theorem C2_merge_confidence_blend (e o : Entity) (w : ℚ) (now : Nat)
    (hw0 : 0 ≤ w) (hw1 : w ≤ 1) :
    (e.merge_observation o w now).confidence
      = (1 - w) * e.confidence + w * o.confidence ∧
    (e.merge_observation o w now).observation_count = e.observation_count + 1 :=
  ⟨merge_observation_confidence e o w now, merge_observation_count e o w now⟩

/-- Witness for C2 at w = 1/2 on concrete entities. -/
theorem C2_merge_confidence_blend_witness :
    (c2Existing.merge_observation c2Incoming (1/2) 3).confidence
      = (1 - 1/2) * c2Existing.confidence + (1/2) * c2Incoming.confidence ∧
    (c2Existing.merge_observation c2Incoming (1/2) 3).observation_count
      = c2Existing.observation_count + 1 :=
  C2_merge_confidence_blend c2Existing c2Incoming (1/2) 3 (by norm_num) (by norm_num)

/-- C8: relationship merge sets confidence to min 1 (c + w*(1-c)),
increments observation_count, never decreases confidence, never
exceeds one. -/
theorem C8_relationship_merge (r : Relationship) (w : ℚ) (now : Nat)
    (hc0 : 0 ≤ r.confidence) (hc1 : r.confidence ≤ 1)
    (hw0 : 0 ≤ w) (hw1 : w ≤ 1) :
    (r.merge_observation w now).confidence
      = min 1 (r.confidence + w * (1 - r.confidence)) ∧
    (r.merge_observation w now).observation_count = r.observation_count + 1 ∧
    r.confidence ≤ (r.merge_observation w now).confidence ∧
    (r.merge_observation w now).confidence ≤ 1 := by
  refine ⟨rfl, rfl, ?_, ?_⟩
  · have h : 0 ≤ w * (1 - r.confidence) := mul_nonneg hw0 (by linarith)
    show r.confidence ≤ min 1 (r.confidence + w * (1 - r.confidence))
    exact le_min hc1 (by linarith)
  · show min 1 (r.confidence + w * (1 - r.confidence)) ≤ 1
    exact min_le_left _ _

/-- Witness for C8 on a concrete relationship. -/
theorem C8_relationship_merge_witness :
    (c8Rel.merge_observation (1/2) 7).confidence
      = min 1 (c8Rel.confidence + (1/2) * (1 - c8Rel.confidence)) ∧
    (c8Rel.merge_observation (1/2) 7).observation_count
      = c8Rel.observation_count + 1 ∧
    c8Rel.confidence ≤ (c8Rel.merge_observation (1/2) 7).confidence ∧
    (c8Rel.merge_observation (1/2) 7).confidence ≤ 1 :=
  C8_relationship_merge c8Rel (1/2) 7 le_rfl (by norm_num [c8Rel]) (by norm_num) (by norm_num)

/-- C5 counterexample: at weight 1 the incoming confidence exceeds the
pre-call existing confidence and the incoming category is non-null, yet
the category is not replaced, because the source compares against the
already-blended confidence. -/
theorem C5_counterexample :
    c5Incoming.confidence > c5Existing.confidence ∧
    strTruthy c5Incoming.semantic.category = true ∧
    (0:ℚ) ≤ 1 ∧ (1:ℚ) ≤ 1 ∧
    (c5Existing.merge_observation c5Incoming 1 0).semantic.category
      = c5Existing.semantic.category ∧
    c5Existing.semantic.category ≠ c5Incoming.semantic.category := by
  refine ⟨by norm_num [c5Incoming, c5Existing], by decide, by norm_num, le_refl 1,
    ?_, by decide⟩
  rw [merge_observation_category]
  norm_num [c5Existing, c5Incoming]

/-- C5 amended: for w < 1 the category and function are replaced exactly
when the incoming confidence beats the pre-call confidence (and the
incoming value is truthy); the source actually compares against the
post-blend confidence, which coincides with that test for w < 1. -/
theorem C5_semantic_field_replacement (e o : Entity) (w : ℚ) (now : Nat)
    (hw0 : 0 ≤ w) (hw1 : w < 1) :
    (e.merge_observation o w now).semantic.category =
      (if o.confidence > e.confidence ∧ strTruthy o.semantic.category
       then o.semantic.category else e.semantic.category) ∧
    (e.merge_observation o w now).semantic.function =
      (if o.confidence > e.confidence ∧ strTruthy o.semantic.function
       then o.semantic.function else e.semantic.function) := by
  have key : (o.confidence > (1 - w) * e.confidence + w * o.confidence)
      ↔ o.confidence > e.confidence := by
    constructor <;> intro h <;> nlinarith
  constructor
  · rw [merge_observation_category]
    simp only [key]
  · rw [merge_observation_function]
    simp only [key]

/-- Witness for the amended C5 at w = 0. -/
theorem C5_semantic_field_replacement_witness :
    (c5Existing.merge_observation c5Incoming 0 0).semantic.category =
      (if c5Incoming.confidence > c5Existing.confidence
          ∧ strTruthy c5Incoming.semantic.category
       then c5Incoming.semantic.category else c5Existing.semantic.category) ∧
    (c5Existing.merge_observation c5Incoming 0 0).semantic.function =
      (if c5Incoming.confidence > c5Existing.confidence
          ∧ strTruthy c5Incoming.semantic.function
       then c5Incoming.semantic.function else c5Existing.semantic.function) :=
  C5_semantic_field_replacement c5Existing c5Incoming 0 0 le_rfl (by norm_num)

lemma tagUnion_pos (a b : Entity) (ha : a.semantic.tags ≠ []) :
    0 < tagUnion a b := by
  unfold tagUnion
  obtain ⟨x, hx⟩ := List.exists_mem_of_ne_nil _ ha
  have hx' : x ∈ a.semantic.tags.dedup := List.mem_dedup.2 hx
  have hu : x ∈ a.semantic.tags.dedup.union b.semantic.tags.dedup :=
    List.mem_union_left hx' _
  exact List.length_pos.2 (List.ne_nil_of_mem hu)

/-- C1: the matching predicate is exactly the ordered short-circuiting
chain of criteria described by the specification, with no weighting or
averaging across criteria. -/
theorem C1_matches_is_predicate_chain (a b : Entity) (t : ℝ) :
    a.matches b t ↔ matchesSpec a b t := by
  unfold Entity.matches matchesSpec
  split_ifs with h1 h2 h3 h4 h5
  · constructor
    · intro h; exact absurd h not_false
    · rintro ⟨hl, -⟩
      rcases h1 with ⟨hne, hsu, hou⟩
      rcases hl with h | h | h <;> tauto
  · constructor
    · intro _
      refine ⟨?_, Or.inl h2⟩
      by_cases hu1 : a.entity_type = EntityType.unknown
      · exact Or.inl hu1
      · by_cases hu2 : b.entity_type = EntityType.unknown
        · exact Or.inr (Or.inl hu2)
        · refine Or.inr (Or.inr ?_)
          by_contra hne
          exact h1 ⟨hne, hu1, hu2⟩
    · intro _; trivial
  · constructor
    · intro _
      refine ⟨?_, Or.inr (Or.inl h3)⟩
      by_cases hu1 : a.entity_type = EntityType.unknown
      · exact Or.inl hu1
      · by_cases hu2 : b.entity_type = EntityType.unknown
        · exact Or.inr (Or.inl hu2)
        · exact Or.inr (Or.inr (by by_contra hne; exact h1 ⟨hne, hu1, hu2⟩))
    · intro _; trivial
  · constructor
    · intro _
      refine ⟨?_, Or.inr (Or.inr (Or.inl h4))⟩
      by_cases hu1 : a.entity_type = EntityType.unknown
      · exact Or.inl hu1
      · by_cases hu2 : b.entity_type = EntityType.unknown
        · exact Or.inr (Or.inl hu2)
        · exact Or.inr (Or.inr (by by_contra hne; exact h1 ⟨hne, hu1, hu2⟩))
    · intro _; trivial
  · constructor
    · intro _
      rcases h5 with ⟨ha5, hb5, -, hj5⟩
      refine ⟨?_, Or.inr (Or.inr (Or.inr ⟨ha5, hb5, hj5⟩))⟩
      by_cases hu1 : a.entity_type = EntityType.unknown
      · exact Or.inl hu1
      · by_cases hu2 : b.entity_type = EntityType.unknown
        · exact Or.inr (Or.inl hu2)
        · exact Or.inr (Or.inr (by by_contra hne; exact h1 ⟨hne, hu1, hu2⟩))
    · intro _; trivial
  · constructor
    · intro h; exact absurd h not_false
    · rintro ⟨-, hl⟩
      rcases hl with h | h | h | h
      · exact h2 h
      · exact h3 h
      · exact h4 h
      · rcases h with ⟨ha5, hb5, hj5⟩
        exact h5 ⟨ha5, hb5, tagUnion_pos a b ha5, hj5⟩

/-- C3: a relationship whose source or target id is absent from the
entity store is rejected with an error, and the entire store — the
relationship count, the relationship-id map, the adjacency edge list,
and all other state — is returned exactly as it was. -/
theorem C3_add_relationship_atomic_noop (g : SemanticGraph) (r : Relationship)
    (m : Bool) (now : Nat)
    (h : alookup g.entity_index r.source_id = none
       ∨ alookup g.entity_index r.target_id = none) :
    (g.add_relationship r m now).1 = g ∧
    (g.add_relationship r m now).1.total_relationships = g.total_relationships ∧
    (g.add_relationship r m now).1.relationship_index = g.relationship_index ∧
    (g.add_relationship r m now).1.edges = g.edges ∧
    ∃ msg, (g.add_relationship r m now).2 = Except.error msg := by
  have hg : (g.add_relationship r m now).1 = g ∧
      ∃ msg, (g.add_relationship r m now).2 = Except.error msg := by
    unfold SemanticGraph.add_relationship
    cases hs : alookup g.entity_index r.source_id with
    | none => exact ⟨by simp [hs], "Source entity not found", by simp [hs]⟩
    | some e =>
        rcases h with h | h
        · rw [hs] at h; cases h
        · exact ⟨by simp [hs, h], "Target entity not found", by simp [hs, h]⟩
  exact ⟨hg.1, by rw [hg.1], by rw [hg.1], by rw [hg.1], hg.2⟩

/-- Witness for C3: inserting into the empty store errors and changes
nothing. -/
theorem C3_add_relationship_atomic_noop_witness :
    (SemanticGraph.empty.add_relationship c3Rel true 0).1 = SemanticGraph.empty ∧
    (SemanticGraph.empty.add_relationship c3Rel true 0).1.total_relationships
      = SemanticGraph.empty.total_relationships ∧
    (SemanticGraph.empty.add_relationship c3Rel true 0).1.relationship_index
      = SemanticGraph.empty.relationship_index ∧
    (SemanticGraph.empty.add_relationship c3Rel true 0).1.edges
      = SemanticGraph.empty.edges ∧
    ∃ msg, (SemanticGraph.empty.add_relationship c3Rel true 0).2
      = Except.error msg :=
  C3_add_relationship_atomic_noop SemanticGraph.empty c3Rel true 0 (Or.inl rfl)

lemma fuzzy_foldl_eq (ql : String) :
    ∀ (l : List (Nat × Entity)) (acc : List Entity),
      l.foldl (fun acc p =>
        if strContainsSub (strLower p.2.name) ql then acc ++ [p.2]
        else if p.2.semantic.aliases.any
            (fun al => strContainsSub (strLower al) ql) then acc ++ [p.2]
        else acc) acc
      = acc ++ (l.filter (fun p => fuzzyHit ql p.2)).map Prod.snd := by
  intro l
  induction l with
  | nil => intro acc; simp
  | cons p l ih =>
      intro acc
      rw [List.foldl_cons, List.filter_cons]
      by_cases h1 : strContainsSub (strLower p.2.name) ql = true
      · have hhit : fuzzyHit ql p.2 = true := by unfold fuzzyHit; rw [h1]; rfl
        rw [if_pos h1, if_pos hhit, ih]
        simp
      · by_cases h2 : (p.2.semantic.aliases.any
            fun al => strContainsSub (strLower al) ql) = true
        · have hhit : fuzzyHit ql p.2 = true := by
            unfold fuzzyHit; rw [h2]; simp
          rw [if_neg h1, if_pos h2, if_pos hhit, ih]
          simp
        · have hhit : ¬ fuzzyHit ql p.2 = true := by
            unfold fuzzyHit; simp [h1, h2]
          rw [if_neg h1, if_neg h2, if_neg hhit, ih]

lemma get_entities_by_name_fuzzy_eq (g : SemanticGraph) (q : String) :
    g.get_entities_by_name q true
      = (g.entity_index.filter (fun p => fuzzyHit (strLower q) p.2)).map Prod.snd := by
  unfold SemanticGraph.get_entities_by_name
  simp only [Bool.not_true, if_neg]
  exact fuzzy_foldl_eq (strLower q) g.entity_index []

/-- C6 counterexample: the stored name cup is a substring of the query
cupboard, so the claim says the entity is returned, but the source only
tests query-inside-name and query-inside-alias, and returns nothing. -/
theorem C6_counterexample :
    strContainsSub (strLower "cupboard") (strLower cupEntity.name) = true ∧
    (7, cupEntity) ∈ cupGraph.entity_index ∧
    cupEntity ∉ cupGraph.get_entities_by_name "cupboard" true := by decide

/-- C6 amended: fuzzy lookup returns a stored entity exactly when,
case-insensitively, the query is a substring of the entity name or of
one of its aliases; name-inside-query does not count. -/
theorem C6_fuzzy_lookup (g : SemanticGraph) (q : String) (e : Entity) :
    e ∈ g.get_entities_by_name q true ↔
      (∃ k, (k, e) ∈ g.entity_index) ∧
      (strContainsSub (strLower e.name) (strLower q) = true ∨
       ∃ al ∈ e.semantic.aliases,
         strContainsSub (strLower al) (strLower q) = true) := by
  rw [get_entities_by_name_fuzzy_eq]
  simp only [List.mem_map, List.mem_filter]
  constructor
  · rintro ⟨p, ⟨hp, hhit⟩, rfl⟩
    refine ⟨⟨p.1, hp⟩, ?_⟩
    unfold fuzzyHit at hhit
    rcases Bool.or_eq_true_iff.1 hhit with h | h
    · exact Or.inl h
    · exact Or.inr (List.any_eq_true.1 h)
  · rintro ⟨⟨k, hk⟩, hcond⟩
    refine ⟨(k, e), ⟨hk, ?_⟩, rfl⟩
    unfold fuzzyHit
    rcases hcond with h | ⟨al, hal, h⟩
    · rw [h]; rfl
    · exact Bool.or_eq_true_iff.2 (Or.inr (List.any_eq_true.2 ⟨al, hal, h⟩))

lemma aset_of_not_mem {α β : Type} [DecidableEq α] {l : List (α × β)} {k : α}
    (v : β) (h : k ∉ l.map Prod.fst) : aset l k v = l ++ [(k, v)] := if_neg h

lemma add_entity_false_entity_index (g : SemanticGraph) (e : Entity) (now : Nat) :
    (g.add_entity e false now).1.entity_index = aset g.entity_index e.id e := rfl

lemma add_entity_false_relationship_index (g : SemanticGraph) (e : Entity)
    (now : Nat) :
    (g.add_entity e false now).1.relationship_index = g.relationship_index := rfl

lemma fold_import_entities (now : Nat) :
    ∀ (es : List Entity) (g : SemanticGraph),
      (∀ e ∈ es, e.id ∉ g.entity_index.map Prod.fst) →
      (es.map Entity.id).Nodup →
      ((es.foldl (fun g e => (g.add_entity e false now).1) g).entity_index
        = g.entity_index ++ es.map (fun e => (e.id, e))) ∧
      ((es.foldl (fun g e => (g.add_entity e false now).1) g).relationship_index
        = g.relationship_index) := by
  intro es
  induction es with
  | nil => intro g _ _; simp
  | cons e es ih =>
      intro g hdisj hnodup
      rw [List.map_cons, List.nodup_cons] at hnodup
      rw [List.foldl_cons]
      have h1 : ((g.add_entity e false now).1).entity_index
          = g.entity_index ++ [(e.id, e)] := by
        rw [add_entity_false_entity_index, aset_of_not_mem e (hdisj e (by simp))]
      have hdisj' : ∀ e' ∈ es,
          e'.id ∉ ((g.add_entity e false now).1).entity_index.map Prod.fst := by
        intro e' he'
        rw [h1]
        simp only [List.map_append, List.mem_append, List.map_cons]
        rintro (h | h)
        · exact hdisj e' (List.mem_cons_of_mem _ he') h
        · simp only [List.map_nil, List.mem_singleton] at h
          exact hnodup.1 (h ▸ List.mem_map.2 ⟨e', he', rfl⟩)
      obtain ⟨ih1, ih2⟩ := ih ((g.add_entity e false now).1) hdisj' hnodup.2
      refine ⟨?_, ?_⟩
      · rw [ih1, h1]; simp
      · rw [ih2, add_entity_false_relationship_index]

lemma add_relationship_false_ok (g : SemanticGraph) (r : Relationship) (now : Nat)
    (hs : (alookup g.entity_index r.source_id).isSome)
    (ht : (alookup g.entity_index r.target_id).isSome) :
    g.add_relationship r false now = (g.add_new_relationship r, Except.ok r) := by
  obtain ⟨a, ha⟩ := Option.isSome_iff_exists.1 hs
  obtain ⟨b, hb⟩ := Option.isSome_iff_exists.1 ht
  simp [SemanticGraph.add_relationship, ha, hb]

lemma fold_import_rels (now : Nat) :
    ∀ (rs : List Relationship) (g : SemanticGraph),
      (∀ r ∈ rs, (alookup g.entity_index r.source_id).isSome
               ∧ (alookup g.entity_index r.target_id).isSome) →
      (∀ r ∈ rs, r.id ∉ g.relationship_index.map Prod.fst) →
      (rs.map Relationship.id).Nodup →
      ∃ g', (rs.foldlM (fun g r =>
          match g.add_relationship r false now with
          | (g1, Except.ok _) => Except.ok g1
          | (_, Except.error msg) => Except.error msg) g
            : Except String SemanticGraph)
          = Except.ok g' ∧
        g'.entity_index = g.entity_index ∧
        g'.relationship_index
          = g.relationship_index ++ rs.map (fun r => (r.id, r)) := by
  intro rs
  induction rs with
  | nil => intro g _ _ _; exact ⟨g, rfl, rfl, by simp⟩
  | cons r rs ih =>
      intro g hend hdisj hnodup
      rw [List.map_cons, List.nodup_cons] at hnodup
      have hr := hend r (by simp)
      have hstep := add_relationship_false_ok g r now hr.1 hr.2
      have hg1E : (g.add_new_relationship r).entity_index = g.entity_index := rfl
      have hg1R : (g.add_new_relationship r).relationship_index
          = g.relationship_index ++ [(r.id, r)] := by
        show aset g.relationship_index r.id r = _
        exact aset_of_not_mem r (hdisj r (by simp))
      have hend' : ∀ r' ∈ rs,
          (alookup (g.add_new_relationship r).entity_index r'.source_id).isSome
          ∧ (alookup (g.add_new_relationship r).entity_index r'.target_id).isSome := by
        intro r' hr'
        rw [hg1E]
        exact hend r' (List.mem_cons_of_mem _ hr')
      have hdisj' : ∀ r' ∈ rs,
          r'.id ∉ (g.add_new_relationship r).relationship_index.map Prod.fst := by
        intro r' hr'
        rw [hg1R]
        simp only [List.map_append, List.mem_append, List.map_cons, List.map_nil,
          List.mem_singleton]
        rintro (h | h)
        · exact hdisj r' (List.mem_cons_of_mem _ hr') h
        · exact hnodup.1 (h ▸ List.mem_map.2 ⟨r', hr', rfl⟩)
      obtain ⟨g', hok, hE, hR⟩ := ih (g.add_new_relationship r) hend' hdisj' hnodup.2
      refine ⟨g', ?_, by rw [hE, hg1E], by rw [hR, hg1R]; simp⟩
      rw [List.foldlM_cons, hstep]
      simpa using hok

lemma map_key_val {β : Type} (f : β → Nat) :
    ∀ (l : List (Nat × β)), (∀ p ∈ l, f p.2 = p.1) →
      (l.map Prod.snd).map (fun v => (f v, v)) = l := by
  intro l
  induction l with
  | nil => intro _; rfl
  | cons p l ih =>
      intro h
      simp only [List.map_cons]
      rw [h p (by simp), Prod.mk.eta, ih (fun q hq => h q (List.mem_cons_of_mem _ hq))]

lemma map_val_ids {β : Type} (f : β → Nat) :
    ∀ (l : List (Nat × β)), (∀ p ∈ l, f p.2 = p.1) →
      (l.map Prod.snd).map f = l.map Prod.fst := by
  intro l
  induction l with
  | nil => intro _; rfl
  | cons p l ih =>
      intro h
      simp only [List.map_cons]
      rw [h p (by simp), ih (fun q hq => h q (List.mem_cons_of_mem _ hq))]

/-- C4: on a well-formed graph, exporting and re-importing succeeds and
reproduces the entity and relationship stores exactly — identical
counts, identical per-id records for every declared field, and an
idempotent round trip. -/
theorem C4_export_import_roundtrip (g : SemanticGraph) (now : Nat)
    (h : GraphWF g) :
    ∃ g', SemanticGraph.import_from_dict g.export_to_dict now = Except.ok g' ∧
      g'.entity_index = g.entity_index ∧
      g'.relationship_index = g.relationship_index ∧
      g'.total_entities = g.total_entities ∧
      g'.total_relationships = g.total_relationships ∧
      (∀ i, alookup g'.entity_index i = alookup g.entity_index i) ∧
      (∀ i, alookup g'.relationship_index i = alookup g.relationship_index i) ∧
      g'.export_to_dict = g.export_to_dict := by
  obtain ⟨hek, hei, hrk, hri, hre⟩ := h
  obtain ⟨hf1, hf2⟩ := fold_import_entities now (g.entity_index.map Prod.snd)
    SemanticGraph.empty (by intro e _ he; simp [SemanticGraph.empty] at he)
    (by rw [map_val_ids Entity.id g.entity_index hei]; exact hek)
  set g0 := (g.entity_index.map Prod.snd).foldl
    (fun g e => (g.add_entity e false now).1) SemanticGraph.empty with hg0
  have hg0E : g0.entity_index = g.entity_index := by
    rw [hf1, map_key_val Entity.id g.entity_index hei]
    rfl
  have hg0R : g0.relationship_index = [] := hf2
  obtain ⟨g', hok, hE, hR⟩ := fold_import_rels now
    (g.relationship_index.map Prod.snd) g0
    (by
      intro r hr
      rw [hg0E]
      obtain ⟨p, hp, rfl⟩ := List.mem_map.1 hr
      exact hre p hp)
    (by intro r _ hmem; rw [hg0R] at hmem; simp at hmem)
    (by rw [map_val_ids Relationship.id g.relationship_index hri]; exact hrk)
  have hE' : g'.entity_index = g.entity_index := by rw [hE, hg0E]
  have hR' : g'.relationship_index = g.relationship_index := by
    rw [hR, hg0R, map_key_val Relationship.id g.relationship_index hri]
    rfl
  refine ⟨g', ?_, hE', hR', ?_, ?_, ?_, ?_, ?_⟩
  · show (SemanticGraph.import_from_dict g.export_to_dict now) = Except.ok g'
    unfold SemanticGraph.import_from_dict SemanticGraph.export_to_dict
    dsimp only
    rw [← hg0]
    exact hok
  · show g'.entity_index.length = g.entity_index.length
    rw [hE']
  · show g'.relationship_index.length = g.relationship_index.length
    rw [hR']
  · intro i; rw [hE']
  · intro i; rw [hR']
  · show SemanticGraph.export_to_dict g' = SemanticGraph.export_to_dict g
    unfold SemanticGraph.export_to_dict
    rw [hE', hR']

lemma add_entity_false_nodes (g : SemanticGraph) (e : Entity) (now : Nat) :
    (g.add_entity e false now).1.nodes = setAdd g.nodes e.id := rfl

lemma add_entity_false_edges (g : SemanticGraph) (e : Entity) (now : Nat) :
    (g.add_entity e false now).1.edges = g.edges := rfl

/-- C7 part 1, stated over any store whose nodes, edges and entity map
are exactly the three-entity chain a to b to c through an ON and an IN
edge. -/
lemma findPath_chain_case (g : SemanticGraph) (a b c : Entity) (r s : Relationship)
    (hab : a.id ≠ b.id) (hac : a.id ≠ c.id) (hbc : b.id ≠ c.id)
    (hN : g.nodes = [a.id, b.id, c.id])
    (hEd : g.edges = [(a.id, b.id, r.id, r), (b.id, c.id, s.id, s)])
    (hI : g.entity_index = [(a.id, a), (b.id, b), (c.id, c)])
    (hON : r.relation_type = RelationType.ON)
    (hIN : s.relation_type = RelationType.IN) :
    g.find_path a c none = Except.ok (some [some a, some b, some c]) := by
  unfold SemanticGraph.find_path
  rw [hN, hEd]
  simp only [Option.getD_none, SemanticGraph.get_entity, hI, alookup,
    defaultPathTypes, hON, hIN, List.filter, List.map, List.length_cons,
    List.length_nil, bfsGo, List.find?, List.flatMap, List.head?]
  have hb1 : (a.id == c.id) = false := by simp [hac]
  have hd1 : decide (a.id = b.id) = false := by simp [hab]
  have hd2 : decide (a.id = c.id) = false := by simp [hac]
  have hd3 : decide (b.id = c.id) = false := by simp [hbc]
  have hd4 : decide (b.id = a.id) = false := by simp [Ne.symm hab]
  have hd5 : decide (c.id = a.id) = false := by simp [Ne.symm hac]
  have hd6 : decide (c.id = b.id) = false := by simp [Ne.symm hbc]
  have hb2 : (b.id == c.id) = false := by simp [hbc]
  simp [bfsGo, hb1, hb2, hd1, hd2, hd3, hd4, hd5, hd6]

/-- C7 part 2, stated over any store holding exactly two entities and a
single PART_OF edge between them. -/
lemma findPath_part_of_case (g : SemanticGraph) (a b : Entity) (r : Relationship)
    (hab : a.id ≠ b.id)
    (hN : g.nodes = [a.id, b.id])
    (hEd : g.edges = [(a.id, b.id, r.id, r)])
    (hPART : r.relation_type = RelationType.PART_OF) :
    g.find_path a b none = Except.ok none := by
  unfold SemanticGraph.find_path
  rw [hN, hEd]
  have hb1 : (a.id == b.id) = false := by simp [hab]
  simp [Option.getD_none, defaultPathTypes, hPART, bfsGo, hb1, hab, Ne.symm hab]

/-- C10 part 1: on the chain store, a spatial query from a with two hops
returns the hop-1 pair twice and the two-hop entity not at all. -/
lemma querySpatial_chain_case (g : SemanticGraph) (a b c : Entity)
    (r s : Relationship)
    (hab : a.id ≠ b.id) (hac : a.id ≠ c.id) (hbc : b.id ≠ c.id)
    (hEd : g.edges = [(a.id, b.id, r.id, r), (b.id, c.id, s.id, s)])
    (hI : g.entity_index = [(a.id, a), (b.id, b), (c.id, c)])
    (hrs : r.source_id = a.id) (hrt : r.target_id = b.id)
    (hss : s.source_id = b.id) (hst : s.target_id = c.id)
    (hON : r.relation_type = RelationType.ON)
    (hIN : s.relation_type = RelationType.IN) :
    g.query_spatial a none 2 = [(b, r), (b, r)] := by
  have hrsp : r.is_spatial = true := by simp [Relationship.is_spatial, hON]
  have hd1 : decide (a.id = b.id) = false := by simp [hab]
  have hd4 : decide (b.id = a.id) = false := by simp [Ne.symm hab]
  unfold SemanticGraph.query_spatial hopLoop hopLevel hopNode
    SemanticGraph.get_relationships SemanticGraph.get_entity
  rw [hEd, hI]
  simp [hopEdge, hopLoop, hrs, hrt, hss, hst, hrsp, hd1, hd4, alookup, hab,
    Ne.symm hab, SemanticGraph.get_entity, hI]

lemma ReachLe.mono {g : SemanticGraph} {k k' u v : Nat}
    (h : ReachLe g k u v) (hk : k ≤ k') : ReachLe g k' u v := by
  induction h generalizing k' with
  | refl _ _ => exact .refl _ _
  | @step k u v w _ he ih =>
      obtain ⟨m, rfl⟩ : ∃ m, k' = m + 1 := ⟨k' - 1, by omega⟩
      exact .step (ih (by omega)) he

lemma mem_get_relationships_out (g : SemanticGraph) (eid : Nat)
    (rel : Relationship)
    (h : rel ∈ g.get_relationships (some eid) none none) :
    ∃ ed ∈ g.edges, ed.1 = eid ∧ ed.2.2.2 = rel := by
  unfold SemanticGraph.get_relationships at h
  simp only [List.mem_map, List.mem_filter, decide_eq_true_eq] at h
  obtain ⟨ed, ⟨hed, hfst⟩, rfl⟩ := h
  exact ⟨ed, hed, hfst, rfl⟩

lemma reach_target (g : SemanticGraph) (hwf : EdgeWF g) {e0 k eid : Nat}
    {rel : Relationship}
    (hrel : rel ∈ g.get_relationships (some eid) none none)
    (heid : ReachLe g k e0 eid) :
    ReachLe g (k + 1) e0 rel.target_id := by
  obtain ⟨ed, hed, hfst, hrel_eq⟩ := mem_get_relationships_out g eid rel hrel
  have htar : rel.target_id = ed.2.1 := by rw [← hrel_eq]; exact (hwf ed hed).2
  rw [htar]
  exact .step heid ⟨ed, hed, hfst, rfl⟩

lemma hopEdge_bound (g : SemanticGraph) (rt : Option RelationType)
    (e0 k K : Nat) (hwf : EdgeWF g)
    (st : List (Entity × Relationship) × List Nat × List Nat)
    (eid : Nat) (rel : Relationship)
    (hrel : rel ∈ g.get_relationships (some eid) none none)
    (heid : ReachLe g k e0 eid) (hkK : k + 1 ≤ K)
    (hres : resBound g e0 K st.1) (hnxt : setBound g e0 (k + 1) st.2.2) :
    resBound g e0 K (hopEdge g rt st rel).1 ∧
    setBound g e0 (k + 1) (hopEdge g rt st rel).2.2 := by
  have hreach : ReachLe g (k + 1) e0 rel.target_id := reach_target g hwf hrel heid
  unfold hopEdge
  split
  · constructor
    · intro pr hpr
      dsimp only at hpr
      have hcases : pr ∈ st.1 ∨ pr ∈ (if (rt = none ∨ some rel.relation_type = rt)
            ∧ rel.is_spatial = true then
          match g.get_entity rel.target_id with
          | some target => st.1 ++ [(target, rel)]
          | none => st.1
        else st.1) := Or.inr hpr
      rcases hcases with hold | hnew
      · exact hres pr hold
      · split at hnew
        · revert hnew
          cases hge : g.get_entity rel.target_id with
          | none => intro hnew; exact hres pr hnew
          | some target =>
              intro hnew
              rcases List.mem_append.1 hnew with hold | hone
              · exact hres pr hold
              · have : pr = (target, rel) := List.mem_singleton.1 hone
                subst this
                exact ⟨hreach.mono hkK, hge⟩
        · exact hres pr hnew
    · intro n hn
      dsimp only at hn
      rcases List.mem_append.1 hn with hold | hone
      · exact hnxt n hold
      · rw [List.mem_singleton.1 hone]
        exact hreach
  · exact ⟨hres, hnxt⟩

lemma hopFold_bound (g : SemanticGraph) (rt : Option RelationType)
    (e0 k K : Nat) (hwf : EdgeWF g) (eid : Nat)
    (heid : ReachLe g k e0 eid) (hkK : k + 1 ≤ K) :
    ∀ (l : List Relationship),
      (∀ rel ∈ l, rel ∈ g.get_relationships (some eid) none none) →
      ∀ st, resBound g e0 K st.1 → setBound g e0 (k + 1) st.2.2 →
      resBound g e0 K (l.foldl (hopEdge g rt) st).1 ∧
      setBound g e0 (k + 1) (l.foldl (hopEdge g rt) st).2.2 := by
  intro l
  induction l with
  | nil => intro _ st h1 h2; exact ⟨h1, h2⟩
  | cons rel l ih =>
      intro hmem st h1 h2
      rw [List.foldl_cons]
      obtain ⟨h1', h2'⟩ := hopEdge_bound g rt e0 k K hwf st eid rel
        (hmem rel (by simp)) heid hkK h1 h2
      exact ih (fun rel' h => hmem rel' (List.mem_cons_of_mem _ h)) _ h1' h2'

lemma hopNode_bound (g : SemanticGraph) (rt : Option RelationType)
    (e0 k K : Nat) (hwf : EdgeWF g) (eid : Nat)
    (heid : ReachLe g k e0 eid) (hkK : k + 1 ≤ K)
    (st : List (Entity × Relationship) × List Nat × List Nat)
    (h1 : resBound g e0 K st.1) (h2 : setBound g e0 (k + 1) st.2.2) :
    resBound g e0 K (hopNode g rt st eid).1 ∧
    setBound g e0 (k + 1) (hopNode g rt st eid).2.2 :=
  hopFold_bound g rt e0 k K hwf eid heid hkK _ (fun _ h => h) st h1 h2

lemma hopLevelFold_bound (g : SemanticGraph) (rt : Option RelationType)
    (e0 k K : Nat) (hwf : EdgeWF g) (hkK : k + 1 ≤ K) :
    ∀ (l : List Nat), (∀ n ∈ l, ReachLe g k e0 n) →
      ∀ st, resBound g e0 K st.1 → setBound g e0 (k + 1) st.2.2 →
      resBound g e0 K (l.foldl (hopNode g rt) st).1 ∧
      setBound g e0 (k + 1) (l.foldl (hopNode g rt) st).2.2 := by
  intro l
  induction l with
  | nil => intro _ st h1 h2; exact ⟨h1, h2⟩
  | cons eid l ih =>
      intro hmem st h1 h2
      rw [List.foldl_cons]
      obtain ⟨h1', h2'⟩ := hopNode_bound g rt e0 k K hwf eid
        (hmem eid (by simp)) hkK st h1 h2
      exact ih (fun n h => hmem n (List.mem_cons_of_mem _ h)) _ h1' h2'

lemma hopLoop_bound (g : SemanticGraph) (rt : Option RelationType)
    (e0 : Nat) (hwf : EdgeWF g) :
    ∀ (n k K : Nat), k + n ≤ K →
      ∀ res vis cur, resBound g e0 K res → setBound g e0 k cur →
      resBound g e0 K (hopLoop g rt n res vis cur).1 := by
  intro n
  induction n with
  | zero => intro k K _ res vis cur h1 _; exact h1
  | succ n ih =>
      intro k K hK res vis cur h1 h2
      show resBound g e0 K (hopLoop g rt (n + 1) res vis cur).1
      rw [hopLoop]
      obtain ⟨h1', h2'⟩ := hopLevelFold_bound g rt e0 k K hwf (by omega)
        cur h2 (res, vis, []) h1 (by intro n hn; cases hn)
      exact ih (k + 1) K (by omega) _ _ _ h1' h2'

lemma directFold_bound (g : SemanticGraph) (rt : Option RelationType)
    (e0 K : Nat) (hwf : EdgeWF g) (hK : 1 ≤ K) :
    ∀ (l : List Relationship),
      (∀ rel ∈ l, rel ∈ g.get_relationships (some e0) none none) →
      ∀ acc, resBound g e0 K acc →
      resBound g e0 K (l.foldl (fun res rel =>
        if rt ≠ none ∧ some rel.relation_type ≠ rt then res
        else if rel.is_spatial then
          match g.get_entity rel.target_id with
          | some target => res ++ [(target, rel)]
          | none => res
        else res) acc) := by
  intro l
  induction l with
  | nil => intro _ acc h; exact h
  | cons rel l ih =>
      intro hmem acc hacc
      rw [List.foldl_cons]
      refine ih (fun rel' h => hmem rel' (List.mem_cons_of_mem _ h)) _ ?_
      have hreach : ReachLe g 1 e0 rel.target_id := by
        have := reach_target g hwf (hmem rel (by simp)) (ReachLe.refl 0 e0)
        simpa using this
      split
      · exact hacc
      · split
        · cases hge : g.get_entity rel.target_id with
          | none => exact hacc
          | some target =>
              intro pr hpr
              rcases List.mem_append.1 hpr with hold | hone
              · exact hacc pr hold
              · rw [List.mem_singleton.1 hone]
                exact ⟨hreach.mono hK, hge⟩
        · exact hacc

/-- C10: on the chain store the two-hop spatial query from a returns the
hop-1 pair twice and the entity two hops away not at all; in general the
multi-hop loop runs only maxHops - 1 expansion levels, so every returned
pair points at a stored entity within maxHops - 1 directed hops. -/
theorem C10_query_spatial_frontier (g : SemanticGraph) :
    (∀ (a b c : Entity) (r s : Relationship),
      a.id ≠ b.id → a.id ≠ c.id → b.id ≠ c.id →
      g.edges = [(a.id, b.id, r.id, r), (b.id, c.id, s.id, s)] →
      g.entity_index = [(a.id, a), (b.id, b), (c.id, c)] →
      r.source_id = a.id → r.target_id = b.id →
      s.source_id = b.id → s.target_id = c.id →
      r.relation_type = RelationType.ON → s.relation_type = RelationType.IN →
      g.query_spatial a none 2 = [(b, r), (b, r)]) ∧
    (∀ (e : Entity) (rt : Option RelationType) (h : Nat),
      EdgeWF g → 1 < h →
      ∀ pr ∈ g.query_spatial e rt h,
        ReachLe g (h - 1) e.id pr.2.target_id ∧
        g.get_entity pr.2.target_id = some pr.1) := by
  constructor
  · intro a b c r s hab hac hbc hEd hI hrs hrt hss hst hON hIN
    exact querySpatial_chain_case g a b c r s hab hac hbc hEd hI hrs hrt hss hst hON hIN
  · intro e rt h hwf hh pr hpr
    unfold SemanticGraph.query_spatial at hpr
    rw [if_pos hh] at hpr
    refine hopLoop_bound g rt e.id hwf (h - 1) 0 (h - 1) (by omega) _ _ _
      ?_ ?_ pr hpr
    · exact directFold_bound g rt e.id (h - 1) hwf (by omega) _ (fun _ hx => hx)
        [] (by intro pr hpr; cases hpr)
    · intro n hn
      rw [List.mem_singleton.1 hn]
      exact ReachLe.refl 0 e.id

lemma keys_aset_superset {α β : Type} [DecidableEq α] {l : List (α × β)}
    {k k' : α} (v : β) (h : k' ∈ l.map Prod.fst) :
    k' ∈ (aset l k v).map Prod.fst := by
  unfold aset
  split
  · obtain ⟨p, hp, rfl⟩ := List.mem_map.1 h
    refine List.mem_map.2 ⟨if p.1 = k then (k, v) else p,
      List.mem_map.2 ⟨p, hp, rfl⟩, ?_⟩
    split
    · rename_i heq; rw [← heq]
    · rfl
  · rw [List.map_append, List.mem_append]
    exact Or.inl h

lemma keys_aset_self {α β : Type} [DecidableEq α] (l : List (α × β))
    (k : α) (v : β) : k ∈ (aset l k v).map Prod.fst := by
  unfold aset
  split
  · rename_i hmem
    obtain ⟨p, hp, hpk⟩ := List.mem_map.1 hmem
    refine List.mem_map.2 ⟨(k, v), List.mem_map.2 ⟨p, hp, by rw [if_pos hpk]⟩, rfl⟩
  · simp

lemma mem_aset_cases {α β : Type} [DecidableEq α] {l : List (α × β)}
    {k : α} {v : β} {p : α × β} (h : p ∈ aset l k v) :
    p ∈ l ∨ p = (k, v) := by
  unfold aset at h
  split at h
  · obtain ⟨q, hq, rfl⟩ := List.mem_map.1 h
    by_cases hqk : q.1 = k
    · right; rw [if_pos hqk]
    · left; rw [if_neg hqk]; exact hq
  · rcases List.mem_append.1 h with h | h
    · exact Or.inl h
    · right; simpa using h

lemma alookup_cons {α β : Type} [DecidableEq α] (p : α × β) (l : List (α × β))
    (k : α) :
    alookup (p :: l) k = if p.1 = k then some p.2 else alookup l k := by
  unfold alookup
  by_cases hpk : p.1 = k
  · rw [List.find?_cons_of_pos _ (by simpa using hpk), if_pos hpk]
    rfl
  · rw [List.find?_cons_of_neg _ (by simpa using hpk), if_neg hpk]

lemma alookup_map_overwrite {α β : Type} [DecidableEq α] (k : α) (v : β) :
    ∀ (l : List (α × β)) (k' : α), k' ≠ k →
      alookup (l.map (fun p => if p.1 = k then (k, v) else p)) k'
        = alookup l k' := by
  intro l
  induction l with
  | nil => intro k' _; rfl
  | cons p l ih =>
      intro k' hne
      rw [List.map_cons]
      by_cases hpk : p.1 = k
      · rw [if_pos hpk, alookup_cons, alookup_cons,
          if_neg (fun h => hne h.symm), if_neg (by rw [hpk]; exact fun h => hne h.symm)]
        exact ih k' hne
      · rw [if_neg hpk, alookup_cons, alookup_cons]
        by_cases hpk' : p.1 = k'
        · rw [if_pos hpk', if_pos hpk']
        · rw [if_neg hpk', if_neg hpk']
          exact ih k' hne

lemma alookup_map_overwrite_self {α β : Type} [DecidableEq α] (k : α) (v : β) :
    ∀ (l : List (α × β)), k ∈ l.map Prod.fst →
      alookup (l.map (fun p => if p.1 = k then (k, v) else p)) k = some v := by
  intro l
  induction l with
  | nil => intro h; cases h
  | cons p l ih =>
      intro hmem
      rw [List.map_cons]
      by_cases hpk : p.1 = k
      · rw [if_pos hpk, alookup_cons, if_pos rfl]
      · rw [if_neg hpk, alookup_cons, if_neg hpk]
        refine ih ?_
        rcases List.mem_map.1 hmem with ⟨q, hq, rfl⟩
        rcases List.mem_cons.1 hq with rfl | hq'
        · exact absurd rfl hpk
        · exact List.mem_map.2 ⟨q, hq', rfl⟩

lemma alookup_append_single_ne {α β : Type} [DecidableEq α] (k : α) (v : β) :
    ∀ (l : List (α × β)) (k' : α), k' ≠ k →
      alookup (l ++ [(k, v)]) k' = alookup l k' := by
  intro l
  induction l with
  | nil =>
      intro k' hne
      show alookup [(k, v)] k' = none
      rw [alookup_cons, if_neg (fun h => hne h.symm)]
      rfl
  | cons p l ih =>
      intro k' hne
      rw [List.cons_append, alookup_cons, alookup_cons]
      by_cases hpk' : p.1 = k'
      · rw [if_pos hpk', if_pos hpk']
      · rw [if_neg hpk', if_neg hpk']
        exact ih k' hne

lemma alookup_append_single_self {α β : Type} [DecidableEq α] (k : α) (v : β) :
    ∀ (l : List (α × β)), k ∉ l.map Prod.fst →
      alookup (l ++ [(k, v)]) k = some v := by
  intro l
  induction l with
  | nil => intro _; show alookup [(k, v)] k = some v; rw [alookup_cons, if_pos rfl]
  | cons p l ih =>
      intro hmem
      rw [List.cons_append, alookup_cons]
      have hpk : p.1 ≠ k := by
        intro h
        exact hmem (List.mem_map.2 ⟨p, by simp, h⟩)
      rw [if_neg hpk]
      exact ih (fun h => hmem (List.mem_cons_of_mem _ h))

lemma alookup_aset_self {α β : Type} [DecidableEq α] (l : List (α × β))
    (k : α) (v : β) : alookup (aset l k v) k = some v := by
  unfold aset
  split
  · exact alookup_map_overwrite_self k v l (by assumption)
  · exact alookup_append_single_self k v l (by assumption)

lemma alookup_aset_ne {α β : Type} [DecidableEq α] (l : List (α × β))
    (k k' : α) (v : β) (hne : k' ≠ k) :
    alookup (aset l k v) k' = alookup l k' := by
  unfold aset
  split
  · exact alookup_map_overwrite k v l k' hne
  · exact alookup_append_single_ne k v l k' hne

lemma mem_setAdd_self {α : Type} [DecidableEq α] (l : List α) (x : α) :
    x ∈ setAdd l x := by
  unfold setAdd
  split
  · assumption
  · simp

lemma mem_setAdd_of_mem {α : Type} [DecidableEq α] {l : List α} {y : α}
    (x : α) (h : y ∈ l) : y ∈ setAdd l x := by
  unfold setAdd
  split
  · exact h
  · exact List.mem_append_left _ h

lemma mem_setAdd_cases {α : Type} [DecidableEq α] {l : List α} {x y : α}
    (h : y ∈ setAdd l x) : y ∈ l ∨ y = x := by
  unfold setAdd at h
  split at h
  · exact Or.inl h
  · rcases List.mem_append.1 h with h | h
    · exact Or.inl h
    · exact Or.inr (by simpa using h)

lemma alookup_mem {α β : Type} [DecidableEq α] {l : List (α × β)} {k : α}
    {v : β} (h : alookup l k = some v) : (k, v) ∈ l := by
  unfold alookup at h
  rw [Option.map_eq_some'] at h
  obtain ⟨p, hfind, hv⟩ := h
  have hp : p ∈ l := List.mem_of_find?_eq_some hfind
  have hk : p.1 = k := by simpa using List.find?_some hfind
  rw [← hv, ← hk]
  exact hp

lemma update_indices_entity_index (g : SemanticGraph) (e : Entity) :
    (g.update_entity_indices e).entity_index = g.entity_index := rfl

lemma update_indices_by_type (g : SemanticGraph) (e : Entity) :
    (g.update_entity_indices e).entities_by_type
      = aset g.entities_by_type e.entity_type
          (setAdd ((alookup g.entities_by_type e.entity_type).getD []) e.id) := rfl

lemma update_indices_by_name (g : SemanticGraph) (e : Entity) :
    (g.update_entity_indices e).entities_by_name
      = aset g.entities_by_name (strLower e.name)
          (setAdd ((alookup g.entities_by_name (strLower e.name)).getD []) e.id) := rfl

lemma consistent_after_update (g g' : SemanticGraph) (e : Entity)
    (hidx : g'.entity_index = aset g.entity_index e.id e)
    (hbt : g'.entities_by_type = g.entities_by_type)
    (hbn : g'.entities_by_name = g.entities_by_name)
    (hc : idxConsistent g) :
    idxConsistent (g'.update_entity_indices e) := by
  obtain ⟨hc1, hc2, hc3⟩ := hc
  refine ⟨?_, ?_, ?_⟩
  · intro p hp eid heid
    rw [update_indices_by_type, hbt] at hp
    rw [update_indices_entity_index, hidx]
    rcases mem_aset_cases hp with hold | hnew
    · exact keys_aset_superset e (hc1 p hold eid heid)
    · rw [hnew] at heid
      rcases mem_setAdd_cases heid with hin | rfl
      · cases halook : alookup g.entities_by_type e.entity_type with
        | none => rw [halook] at hin; cases hin
        | some b =>
            rw [halook] at hin
            exact keys_aset_superset e (hc1 _ (alookup_mem halook) eid hin)
      · exact keys_aset_self _ _ _
  · intro p hp eid heid
    rw [update_indices_by_name, hbn] at hp
    rw [update_indices_entity_index, hidx]
    rcases mem_aset_cases hp with hold | hnew
    · exact keys_aset_superset e (hc2 p hold eid heid)
    · rw [hnew] at heid
      rcases mem_setAdd_cases heid with hin | rfl
      · cases halook : alookup g.entities_by_name (strLower e.name) with
        | none => rw [halook] at hin; cases hin
        | some b =>
            rw [halook] at hin
            exact keys_aset_superset e (hc2 _ (alookup_mem halook) eid hin)
      · exact keys_aset_self _ _ _
  · intro p hp
    rw [update_indices_entity_index, hidx] at hp
    rw [update_indices_by_type, update_indices_by_name, hbt, hbn]
    rcases mem_aset_cases hp with hold | hnew
    · obtain ⟨⟨bT, hbT, hpbT⟩, ⟨bN, hbN, hpbN⟩⟩ := hc3 p hold
      constructor
      · by_cases hT : p.2.entity_type = e.entity_type
        · rw [hT, alookup_aset_self]
          refine ⟨_, rfl, ?_⟩
          rw [hT] at hbT
          rw [hbT]
          exact mem_setAdd_of_mem e.id hpbT
        · rw [alookup_aset_ne _ _ _ _ hT]
          exact ⟨bT, hbT, hpbT⟩
      · by_cases hNm : strLower p.2.name = strLower e.name
        · rw [hNm, alookup_aset_self]
          refine ⟨_, rfl, ?_⟩
          rw [hNm] at hbN
          rw [hbN]
          exact mem_setAdd_of_mem e.id hpbN
        · rw [alookup_aset_ne _ _ _ _ hNm]
          exact ⟨bN, hbN, hpbN⟩
    · rw [hnew]
      constructor
      · rw [alookup_aset_self]
        exact ⟨_, rfl, mem_setAdd_self _ _⟩
      · rw [alookup_aset_self]
        exact ⟨_, rfl, mem_setAdd_self _ _⟩

lemma idxConsistent_congr (g g' : SemanticGraph)
    (h1 : g'.entity_index = g.entity_index)
    (h2 : g'.entities_by_type = g.entities_by_type)
    (h3 : g'.entities_by_name = g.entities_by_name)
    (hc : idxConsistent g) : idxConsistent g' := by
  unfold idxConsistent
  rw [h1, h2, h3]
  exact hc

lemma add_entity_new_consistent (g : SemanticGraph) (e : Entity)
    (hc : idxConsistent g) : idxConsistent (g.add_entity_new e).1 :=
  consistent_after_update g _ e rfl rfl rfl hc

lemma add_entity_consistent (g : SemanticGraph) (e : Entity) (m : Bool)
    (now : Nat) (hc : idxConsistent g) :
    idxConsistent (g.add_entity e m now).1 := by
  unfold SemanticGraph.add_entity
  split
  · cases hfm : g.find_matching_entity e with
    | none =>
        simp only [hfm]
        exact add_entity_new_consistent g e hc
    | some existing =>
        simp only [hfm]
        refine consistent_after_update g _
          (existing.merge_observation e (3/10) now) ?_ rfl rfl hc
        show aset g.entity_index existing.id _ = _
        rw [merge_observation_id]
  · exact add_entity_new_consistent g e hc

lemma add_relationship_consistent (g : SemanticGraph) (r : Relationship)
    (m : Bool) (now : Nat) (hc : idxConsistent g) :
    idxConsistent (g.add_relationship r m now).1 := by
  refine idxConsistent_congr g _ ?_ ?_ ?_ hc <;>
    (unfold SemanticGraph.add_relationship SemanticGraph.add_new_relationship
     repeat' split
     all_goals rfl)

/-- C9: in every reachable store state the secondary indices and the
primary entity map agree — each mutating operation updates all three
structures before returning, so no reachable state is inconsistent. -/
theorem C9_index_coherence (g : SemanticGraph) (h : Reachable g) :
    idxConsistent g := by
  induction h with
  | empty =>
      refine ⟨?_, ?_, ?_⟩ <;> intro p hp <;> cases hp
  | add_entity e m now _ ih => exact add_entity_consistent _ e m now ih
  | add_relationship r m now _ ih => exact add_relationship_consistent _ r m now ih

/-- Witness for C9 on a two-insert reachable state. -/
theorem C9_index_coherence_witness :
    idxConsistent ((SemanticGraph.empty.add_entity c9Entity false 0).1.add_entity
      c9Entity2 true 1).1 :=
  C9_index_coherence _
    (Reachable.add_entity c9Entity2 true 1
      (Reachable.add_entity c9Entity false 0 Reachable.empty))

/-- C7: on the default allow-set, path finding over the induced subgraph
returns the endpoint-inclusive shortest entity sequence of the ON/IN
chain, and reports no path — without raising — when the only edge is the
disallowed PART_OF. -/
theorem C7_find_path_behavior :
    (∀ (g : SemanticGraph) (a b c : Entity) (r s : Relationship),
      a.id ≠ b.id → a.id ≠ c.id → b.id ≠ c.id →
      g.nodes = [a.id, b.id, c.id] →
      g.edges = [(a.id, b.id, r.id, r), (b.id, c.id, s.id, s)] →
      g.entity_index = [(a.id, a), (b.id, b), (c.id, c)] →
      r.relation_type = RelationType.ON → s.relation_type = RelationType.IN →
      g.find_path a c none = Except.ok (some [some a, some b, some c])) ∧
    (∀ (g : SemanticGraph) (a b : Entity) (r : Relationship),
      a.id ≠ b.id →
      g.nodes = [a.id, b.id] →
      g.edges = [(a.id, b.id, r.id, r)] →
      r.relation_type = RelationType.PART_OF →
      g.find_path a b none = Except.ok none) :=
  ⟨findPath_chain_case, findPath_part_of_case⟩

/-- Witness for C7 on the concrete stores. -/
theorem C7_find_path_behavior_witness :
    wChain.find_path wA wC none
      = Except.ok (some [some wA, some wB, some wC]) ∧
    wPair.find_path wA wB none = Except.ok none :=
  ⟨C7_find_path_behavior.1 wChain wA wB wC wR1 wR2 (by decide) (by decide)
      (by decide) (by decide) (by decide) (by decide) rfl rfl,
   C7_find_path_behavior.2 wPair wA wB wRP (by decide) (by decide) (by decide)
      rfl⟩

/-- Witness for C10 on the concrete chain store. -/
theorem C10_query_spatial_frontier_witness :
    wChain.query_spatial wA none 2 = [(wB, wR1), (wB, wR1)] ∧
    (ReachLe wChain (2 - 1) wA.id (wB, wR1).2.target_id ∧
      wChain.get_entity (wB, wR1).2.target_id = some (wB, wR1).1) :=
  ⟨(C10_query_spatial_frontier wChain).1 wA wB wC wR1 wR2 (by decide)
      (by decide) (by decide) (by decide) (by decide) rfl rfl rfl rfl rfl rfl,
   (C10_query_spatial_frontier wChain).2 wA none 2 (by unfold EdgeWF; decide)
      (by decide) (wB, wR1) (by decide)⟩

/-- Witness for C4 on the concrete chain store. -/
theorem C4_export_import_roundtrip_witness :
    ∃ g', SemanticGraph.import_from_dict wChain.export_to_dict 0
        = Except.ok g' ∧
      g'.entity_index = wChain.entity_index ∧
      g'.relationship_index = wChain.relationship_index ∧
      g'.total_entities = wChain.total_entities ∧
      g'.total_relationships = wChain.total_relationships ∧
      (∀ i, alookup g'.entity_index i = alookup wChain.entity_index i) ∧
      (∀ i, alookup g'.relationship_index i
        = alookup wChain.relationship_index i) ∧
      g'.export_to_dict = wChain.export_to_dict :=
  C4_export_import_roundtrip wChain 0 (by unfold GraphWF; decide)
